import Mathlib

/-!
Verification of the crowd-density video pipeline
(`Group5_Main/backend_GrpNo.5/detection_service.py`, class `DetectionService`).

The Python source is shallowly embedded below:
* floating-point arithmetic is modelled by exact rationals (`ℚ`);
  Python's `round(x, 2)` is modelled by `round2` (round half to even, the
  tie-breaking rule Python uses);
* the OpenCV capture/writer handles, the filesystem and the external
  transcoder are modelled by an explicit environment (`PVEnv`, `TEnv`)
  recording the outcome of each effectful call;
* Python exceptions are modelled with `Except`; the `try/except` blocks of
  the source become explicit handlers.
-/

attribute [local semireducible] Rat.mul Rat.inv Rat.add Rat.sub

/-- Round half to even to the nearest integer, the tie-breaking rule used by
Python's built-in `round`.  Written with integer arithmetic on the
numerator and denominator so that it evaluates inside the kernel:
`q.num / q.den` (Euclidean division, positive denominator) is `⌊q⌋` and
`q.num % q.den` over `q.den` is the fractional part. -/
def roundHalfEven (q : ℚ) : ℤ :=
  let d : ℤ := (q.den : ℤ)
  let f : ℤ := q.num / d
  let r : ℤ := q.num % d
  if 2 * r < d then f
  else if d < 2 * r then f + 1
  else if f % 2 = 0 then f else f + 1

/-- Python's `round(x, 2)`: round to two decimal places, half to even. -/
def round2 (q : ℚ) : ℚ := (roundHalfEven (q * 100) : ℚ) / 100

lemma rat_sub_floor_eq (q : ℚ) :
    q - (⌊q⌋ : ℚ) = ((q.num % (q.den : ℤ) : ℤ) : ℚ) / (q.den : ℚ) := by
  have hd0 : ((q.den : ℚ)) ≠ 0 := by
    have := q.den_pos
    positivity
  have hfl : ⌊q⌋ = q.num / (q.den : ℤ) := Rat.floor_def
  have hmod : q.num % (q.den : ℤ) = q.num - (q.den : ℤ) * (q.num / (q.den : ℤ)) :=
    Int.emod_def _ _
  rw [hmod, ← hfl]
  push_cast
  rw [sub_div]
  congr 1
  · exact (Rat.num_div_den q).symm
  · rw [mul_comm, mul_div_assoc, div_self hd0, mul_one]

/-- `roundHalfEven` returns either the floor, or the floor plus one; the
latter only when the fractional part is at least one half. -/
lemma roundHalfEven_cases (q : ℚ) :
    roundHalfEven q = ⌊q⌋ ∨ (roundHalfEven q = ⌊q⌋ + 1 ∧ 1/2 ≤ q - (⌊q⌋ : ℚ)) := by
  have hfl : ⌊q⌋ = q.num / (q.den : ℤ) := Rat.floor_def
  have hdenQ : (0:ℚ) < (q.den : ℚ) := by exact_mod_cast q.den_pos
  have hhalf : ∀ hdr : (q.den : ℤ) ≤ 2 * (q.num % (q.den : ℤ)),
      1/2 ≤ q - (⌊q⌋ : ℚ) := by
    intro hdr
    rw [rat_sub_floor_eq q, le_div_iff hdenQ]
    have h2 : ((q.den : ℤ) : ℚ) ≤ ((2 * (q.num % (q.den : ℤ)) : ℤ) : ℚ) := by
      exact_mod_cast hdr
    push_cast at h2
    linarith
  unfold roundHalfEven
  by_cases h1 : 2 * (q.num % (q.den : ℤ)) < (q.den : ℤ)
  · left
    simp only [h1, if_true, hfl]
  · by_cases h2 : (q.den : ℤ) < 2 * (q.num % (q.den : ℤ))
    · right
      refine ⟨by simp only [h1, h2, if_false, if_true, hfl], hhalf (le_of_lt h2)⟩
    · by_cases h3 : q.num / (q.den : ℤ) % 2 = 0
      · left
        simp only [h1, h2, h3, if_false, if_true, hfl]
      · right
        refine ⟨by simp only [h1, h2, h3, if_false, hfl], hhalf (le_of_not_lt h1)⟩

lemma roundHalfEven_nonneg {q : ℚ} (h : 0 ≤ q) : 0 ≤ roundHalfEven q := by
  have hf : (0:ℤ) ≤ ⌊q⌋ := Int.floor_nonneg.mpr h
  rcases roundHalfEven_cases q with hc | ⟨hc, _⟩ <;> omega

lemma roundHalfEven_le {q : ℚ} {n : ℤ} (h : q ≤ (n : ℚ)) : roundHalfEven q ≤ n := by
  have hf : ⌊q⌋ ≤ n := by
    have := Int.floor_le_floor h
    rwa [Int.floor_intCast] at this
  rcases roundHalfEven_cases q with hc | ⟨hc, hhalf⟩
  · omega
  · rw [hc]
    by_contra hcon
    have heq : ⌊q⌋ = n := by omega
    have hfle : ((⌊q⌋ : ℤ) : ℚ) ≤ q := Int.floor_le q
    rw [heq] at hhalf
    linarith

lemma round2_nonneg {q : ℚ} (h : 0 ≤ q) : 0 ≤ round2 q := by
  unfold round2
  have : (0:ℤ) ≤ roundHalfEven (q * 100) := roundHalfEven_nonneg (by linarith)
  have hc : (0:ℚ) ≤ (roundHalfEven (q * 100) : ℚ) := by exact_mod_cast this
  linarith [div_nonneg hc (by norm_num : (0:ℚ) ≤ 100)]

lemma round2_le_100 {q : ℚ} (h : q ≤ 100) : round2 q ≤ 100 := by
  unfold round2
  have h1 : q * 100 ≤ ((10000 : ℤ) : ℚ) := by push_cast; linarith
  have h2 : roundHalfEven (q * 100) ≤ (10000 : ℤ) := roundHalfEven_le h1
  have hc : (roundHalfEven (q * 100) : ℚ) ≤ 10000 := by exact_mod_cast h2
  rw [div_le_iff (show (0:ℚ) < 100 by norm_num)]
  linarith

/-- The raw density formula of `process_video_frame` (detection_service.py
lines 144-146): `min(100.0, (person_count * 7500 / frame_area) * 100)`.
`detect_persons` (lines 81-86) computes the same expression from the image
area. -/
def rawDensity (person_count : Nat) (area : Nat) : ℚ :=
  min 100 (((person_count * 7500 : Nat) : ℚ) / (area : ℚ) * 100)

/-- `density_percentage` as returned by the source (line 150):
the raw density rounded to two decimal places. -/
def densityPercentage (person_count : Nat) (area : Nat) : ℚ :=
  round2 (rawDensity person_count area)

/-! ### String helpers

Python's `str.replace` and `str.endswith`, re-implemented over the
character list of a `String` so they evaluate inside the kernel. -/

/-- Replace every (non-overlapping, leftmost-first) occurrence of `pat` in
`s` by `rep`, exactly like Python's `str.replace` for a non-empty pattern.
The fuel argument is the length of `s`, which suffices because each match
consumes at least one character of a non-empty pattern. -/
def replaceFuel : Nat → List Char → List Char → List Char → List Char
  | 0, s, _, _ => s
  | _ + 1, [], _, _ => []
  | fuel + 1, c :: rest, pat, rep =>
    if pat ≠ [] ∧ pat.isPrefixOf (c :: rest) then
      rep ++ replaceFuel fuel ((c :: rest).drop pat.length) pat rep
    else
      c :: replaceFuel fuel rest pat rep

/-- Python's `s.replace(pat, rep)` (for the non-empty patterns used by the
source: `'.mp4'`). -/
def strReplace (s pat rep : String) : String :=
  String.mk (replaceFuel s.data.length s.data pat.data rep.data)

/-- Python's `s.endswith(suffix)`. -/
def strEndsWith (s suffix : String) : Bool :=
  suffix.data.isSuffixOf s.data

/-! ### Detections and per-frame results -/

/-- One detected bounding box with its confidence, as stored by
`process_video_frame` (lines 132-135): `{'bbox': [x1, y1, x2, y2],
'confidence': confidence}`.  The `bbox` list always has exactly four
entries, so it is modelled as four named coordinates. -/
structure Detection where
  x1 : ℚ
  y1 : ℚ
  x2 : ℚ
  y2 : ℚ
  confidence : ℚ
deriving DecidableEq

/-- The per-anchor-frame record appended to `frame_detections`
(lines 148-153 plus the `frame_number`/`timestamp` keys added at
lines 250-251). -/
structure FrameDetect where
  person_count : Nat
  density_percentage : ℚ
  detections : List Detection
  frame_number : Nat
  timestamp : ℚ
deriving DecidableEq

/-! ### The transcode fallback `_reencode_to_h264` (lines 331-398) -/

/-- Outcome of the `subprocess.run` call (line 361). -/
inductive RunOutcome where
  /-- The subprocess terminated with the given return code. -/
  | completed (returncode : Int)
  /-- `subprocess.TimeoutExpired` was raised (the 300 s timeout fired). -/
  | timeout
  /-- some other exception was raised inside the `try` block -/
  | raised
deriving DecidableEq

/-- Environment for one `_reencode_to_h264` call: what the import, the
subprocess and the filesystem do. -/
structure TEnv where
  /-- whether `import imageio_ffmpeg` succeeds (line 337) -/
  importOk : Bool
  /-- what `subprocess.run` does -/
  outcome : RunOutcome
  /-- whether the temporary `_h264` output file exists after the run -/
  tempCreated : Bool
  /-- `os.path.getsize` of the temporary file when it exists -/
  tempSize : Nat
deriving DecidableEq

/-- Observable result of `_reencode_to_h264`. -/
structure ReencodeResult where
  /-- the path returned to the caller -/
  returnedPath : String
  /-- whether the temporary `_h264` file still exists after the call -/
  tempExists : Bool
  /-- whether `os.replace(temp_path, input_path)` ran (line 370) -/
  originalReplaced : Bool
deriving DecidableEq

/-- Python exceptions that can escape the body of `_reencode_to_h264`
before its `except` clauses handle them. -/
inductive PyExc where
  | importError
  | timeoutExpired
  | other
deriving DecidableEq

/-- The `try` body of `_reencode_to_h264` (lines 336-378): import the
transcoder, run it, and on a zero exit status with a non-empty output file
replace the original via `os.replace`; on a non-zero status or a
missing/empty output, delete the temporary file and return the input path. -/
def reencodeBody (env : TEnv) (input_path : String) : Except PyExc ReencodeResult :=
  if ¬ env.importOk then
    .error .importError
  else
    match env.outcome with
    | .timeout => .error .timeoutExpired
    | .raised => .error .other
    | .completed rc =>
      if rc = 0 ∧ env.tempCreated ∧ 0 < env.tempSize then
        .ok { returnedPath := input_path, tempExists := false, originalReplaced := true }
      else
        .ok { returnedPath := input_path, tempExists := false, originalReplaced := false }

/-- `_reencode_to_h264` with its `except` handlers (lines 380-398): every
handler removes the temporary file when it exists and returns the input
path; no exception escapes (the function is total). -/
def reencode_to_h264 (env : TEnv) (input_path : String) : ReencodeResult :=
  match reencodeBody env input_path with
  | .ok r => r
  | .error .importError =>
    -- ImportError is raised before the temporary path is ever created
    { returnedPath := input_path, tempExists := false, originalReplaced := false }
  | .error .timeoutExpired =>
    -- lines 384-389: remove the temporary file if it exists, return input
    { returnedPath := input_path, tempExists := false, originalReplaced := false }
  | .error .other =>
    -- lines 390-398: remove the temporary file if it exists, return input
    { returnedPath := input_path, tempExists := false, originalReplaced := false }

/-! ### Codec negotiation (lines 195-234) -/

/-- The ordered candidate fourcc list (lines 197-203). -/
def fourccOptions : List String := ["mp4v", "XVID", "MJPG", "avc1", "H264"]

/-- The per-candidate target path (lines 209-212): for `MJPG`, when the
output path does not already end in `.avi`, every occurrence of `.mp4` is
rewritten to `.avi`; otherwise the path is unchanged. -/
def mjpgPath (codec : String) (path : String) : String :=
  if codec = "MJPG" ∧ strEndsWith path ".avi" = false then
    strReplace path ".mp4" ".avi"
  else path

/-- The codec negotiation loop (lines 207-231): try each candidate in
order; the first that opens is selected together with its (possibly
rewritten) path.  Also returns the list of candidates that were attempted,
in order. -/
def negotiate (opens : String → Bool) (path : String) :
    List String → Option (String × String) × List String
  | [] => (none, [])
  | c :: rest =>
    let tp := mjpgPath c path
    if opens c then (some (c, tp), [c])
    else
      let r := negotiate opens path rest
      (r.1, c :: r.2)

/-! ### The video pipeline `process_video` (lines 164-320)

The OpenCV capture, the YOLO detector, the writer and the filesystem are
abstracted into an environment `PVEnv`.  One frame of video is identified
with its 1-based index; the detector capability is the function
`det : Nat → List Detection` giving the boxes YOLO returns at an anchor
frame (a detector that raises internally is absorbed into `det i = []`,
because `process_video_frame` catches its own exceptions and returns an
empty result, lines 155-162). -/

structure PVEnv where
  /-- `cap.isOpened()` for the source video (line 180) -/
  sourceOpens : Bool
  /-- `int(cap.get(cv2.CAP_PROP_FPS))` -/
  fps : Nat
  /-- `int(cap.get(cv2.CAP_PROP_FRAME_WIDTH))` -/
  width : Nat
  /-- `int(cap.get(cv2.CAP_PROP_FRAME_HEIGHT))` -/
  height : Nat
  /-- number of frames the capture yields before `cap.read()` returns
  false; also `CAP_PROP_FRAME_COUNT` (the source reports both from the
  same container metadata) -/
  numFrames : Nat
  /-- the boxes the YOLO call returns on the frame with 1-based index `i` -/
  det : Nat → List Detection
  /-- whether `cv2.VideoWriter(...).isOpened()` holds for a given fourcc -/
  codecOpens : String → Bool
  /-- whether `out.write(...)` raises at frame index `i` -/
  writeFail : Nat → Bool
  /-- `os.path.exists(output_path)` after the writer is released -/
  outputFileExists : Bool
  /-- environment of the `_reencode_to_h264` call -/
  tenv : TEnv

/-- The per-anchor result of `process_video_frame` at frame `i`, including
the `frame_number` and `timestamp` keys added by `process_video`
(lines 250-251).  A zero frame area makes the division at line 146 raise
`ZeroDivisionError`, which `process_video_frame` catches, returning the
all-zero result (lines 155-162). -/
def mkFrameDetect (env : PVEnv) (i : Nat) : FrameDetect :=
  let area := env.height * env.width
  if area = 0 then
    { person_count := 0, density_percentage := 0, detections := [],
      frame_number := i, timestamp := (i : ℚ) / (env.fps : ℚ) }
  else
    let boxes := env.det i
    { person_count := boxes.length
      density_percentage := densityPercentage boxes.length area
      detections := boxes
      frame_number := i
      timestamp := (i : ℚ) / (env.fps : ℚ) }

/-- What was written to the encoder for one frame. -/
inductive WrittenFrame where
  /-- an anchor frame, annotated by `process_video_frame` with its own
  detections (line 261) -/
  | anchor (detections : List Detection) : WrittenFrame
  /-- a non-anchor frame annotated with the propagated detections
  (lines 264-282) -/
  | propagated (detections : List Detection) : WrittenFrame
  /-- the original frame, written with no boxes (line 285) -/
  | plain : WrittenFrame
deriving DecidableEq

/-- The boxes drawn on a written frame.  On a `propagated` frame the
source draws exactly the stored detections: each stored `bbox` has four
entries by construction (line 133), so the `len(bbox) == 4` guard at
line 270 always passes. -/
def drawnBoxes : WrittenFrame → List Detection
  | .anchor ds => ds
  | .propagated ds => ds
  | .plain => []

/-- Loop-local state of the frame loop (lines 188-190 and 236-238). -/
structure LoopState where
  frame_detections : List FrameDetect
  total_persons : Nat
  last_detections : Option (List Detection)
  written : List WrittenFrame
deriving DecidableEq

/-- Errors that can be raised inside the `try` of `process_video`. -/
inductive PVError where
  /-- `ValueError` at line 181: the source could not be opened -/
  | sourceUnreadable
  /-- `ValueError` at line 234: no codec candidate opened -/
  | noUsableEncoder
  /-- an exception raised by `out.write` -/
  | writeFailed
  /-- `ZeroDivisionError` from `frame_count % frame_interval` or
  `frame_count / fps` -/
  | zeroDivision
deriving DecidableEq

/-- One iteration of the frame loop (lines 240-285) at frame index `i`.
Errors carry the loop state at the moment the exception was raised, so
that the embedding can state what the outer `except` handler discards. -/
def stepFrame (env : PVEnv) (hasOut : Bool) (frame_interval : Nat) (i : Nat)
    (s : LoopState) : Except (PVError × LoopState) LoopState :=
  if frame_interval = 0 then .error (.zeroDivision, s)
  else if i % frame_interval = 0 then
    -- anchor frame (lines 248-261)
    if env.fps = 0 then .error (.zeroDivision, s)
    else
      let fd := mkFrameDetect env i
      let s1 : LoopState :=
        { frame_detections := s.frame_detections ++ [fd]
          total_persons := s.total_persons + fd.person_count
          last_detections := some fd.detections
          written := s.written }
      if hasOut then
        if env.writeFail i then .error (.writeFailed, s1)
        else .ok { s1 with written := s1.written ++ [.anchor fd.detections] }
      else .ok s1
  else
    -- intermediate frame (lines 262-285)
    if hasOut then
      match s.last_detections with
      | some ds =>
        if 0 < ds.length then
          if env.writeFail i then .error (.writeFailed, s)
          else .ok { s with written := s.written ++ [.propagated ds] }
        else
          if env.writeFail i then .error (.writeFailed, s)
          else .ok { s with written := s.written ++ [.plain] }
      | none =>
        if env.writeFail i then .error (.writeFailed, s)
        else .ok { s with written := s.written ++ [.plain] }
    else .ok s

/-- The frame loop over a list of frame indices. -/
def runLoop (env : PVEnv) (hasOut : Bool) (frame_interval : Nat) :
    List Nat → LoopState → Except (PVError × LoopState) LoopState
  | [], s => .ok s
  | i :: rest, s =>
    match stepFrame env hasOut frame_interval i s with
    | .error e => .error e
    | .ok s1 => runLoop env hasOut frame_interval rest s1

/-- The dictionary returned by `process_video`: either the success
dictionary of lines 304-312, or the error dictionary of lines 316-320
(which always carries `total_frames = 0` and `processed_frames = 0`). -/
inductive ResultDict where
  | success (total_frames processed_frames : Nat)
      (average_person_count average_density : ℚ)
      (frame_detections : List FrameDetect)
      (output_video : Option String) (output_exists : Bool)
  | failure (err : PVError) (total_frames processed_frames : Nat)
deriving DecidableEq

/-- Whether the run returned the success dictionary. -/
def ResultDict.isSuccess : ResultDict → Bool
  | .success _ _ _ _ _ _ _ => true
  | .failure _ _ _ => false

/-- Observable side effects of one `process_video` run (ghost state of the
embedding): handle lifecycle, frames written to the encoder, the
`frame_detections` list at exit, and whether the transcode pass ran. -/
structure Effects where
  /-- whether `cap.release()` ran -/
  capReleased : Bool
  /-- whether an encoder handle was successfully opened -/
  outOpened : Bool
  /-- whether `out.release()` ran -/
  outReleased : Bool
  /-- the fourcc selected by negotiation, if any -/
  usedCodec : Option String
  /-- the frames written to the encoder, in order -/
  written : List WrittenFrame
  /-- the local `frame_detections` list at the moment the run ended -/
  collected : List FrameDetect
  /-- whether `_reencode_to_h264` was invoked -/
  transcodeInvoked : Bool
deriving DecidableEq

/-- Sum of `person_count` over a list of frame results. -/
def sumPC (l : List FrameDetect) : Nat := (l.map (·.person_count)).sum

/-- Sum of `density_percentage` over a list of frame results. -/
def sumDensity (l : List FrameDetect) : ℚ := (l.map (·.density_percentage)).sum

/-- The part of `process_video` after the writer has (possibly) been
opened: the frame loop (lines 240-285), the releases and the transcode
pass (lines 287-299), and the aggregation (lines 301-312).  On an
exception the outer `except` (lines 314-320) returns the error dictionary
without releasing any handle. -/
def runJob (env : PVEnv) (outPath : Option String) (usedCodec : Option String)
    (frame_interval : Nat) : ResultDict × Effects :=
  let hasOut := outPath.isSome
  match runLoop env hasOut frame_interval (List.range' 1 env.numFrames)
      ⟨[], 0, none, []⟩ with
  | .error (e, s) =>
    (ResultDict.failure e 0 0,
     { capReleased := false, outOpened := hasOut, outReleased := false,
       usedCodec := usedCodec, written := s.written,
       collected := s.frame_detections, transcodeInvoked := false })
  | .ok s =>
    -- cap.release(); out.release(); conditional transcode (lines 287-299)
    let pr : Option String × Bool :=
      match outPath with
      | none => (none, false)
      | some p =>
        if env.outputFileExists then
          if strEndsWith p ".mp4" then
            (some (reencode_to_h264 env.tenv p).returnedPath, true)
          else (some p, false)
        else (some p, false)
    let n := s.frame_detections.length
    let apc := round2 (if n = 0 then 0 else (s.total_persons : ℚ) / (n : ℚ))
    let ad := round2 (if n = 0 then 0 else sumDensity s.frame_detections / (n : ℚ))
    let oe := match pr.1 with
      | some _ => env.outputFileExists
      | none => false
    (ResultDict.success env.numFrames n apc ad (s.frame_detections.take 100) pr.1 oe,
     { capReleased := true, outOpened := hasOut, outReleased := hasOut,
       usedCodec := usedCodec, written := s.written,
       collected := s.frame_detections, transcodeInvoked := pr.2 })

/-- `DetectionService.process_video` (lines 164-320): open the source,
negotiate a codec when an output path is given, run the frame loop,
release, transcode, aggregate.  Every exception raised inside the `try`
lands in the handler of lines 314-320, which returns the error dictionary
`{'error': ..., 'total_frames': 0, 'processed_frames': 0}`. -/
def process_video (env : PVEnv) (output_path : Option String)
    (frame_interval : Nat) : ResultDict × Effects :=
  if env.sourceOpens then
    match output_path with
    | none => runJob env none none frame_interval
    | some p =>
      match negotiate env.codecOpens p fourccOptions with
      | (some cp, _) => runJob env (some cp.2) (some cp.1) frame_interval
      | (none, _) =>
        (ResultDict.failure PVError.noUsableEncoder 0 0,
         { capReleased := false, outOpened := false, outReleased := false,
           usedCodec := none, written := [], collected := [],
           transcodeInvoked := false })
  else
    (ResultDict.failure PVError.sourceUnreadable 0 0,
     { capReleased := false, outOpened := false, outReleased := false,
       usedCodec := none, written := [], collected := [],
       transcodeInvoked := false })

/-! ### Characterization of the frame loop -/

/-- The anchor frame indices among frames `1..N`: those divisible by
`frame_interval` (line 248). -/
def anchorIdxs (N fi : Nat) : List Nat :=
  (List.range' 1 N).filter (fun i => decide (i % fi = 0))

/-- The detections computed by `process_video_frame` at frame `i`. -/
def detAt (env : PVEnv) (i : Nat) : List Detection :=
  (mkFrameDetect env i).detections

/-- The value of the loop variable `last_detections` after frames `1..k`
have been processed: the detections of the greatest anchor index `≤ k`
(which is `fi * (k / fi)`), or `none` when no anchor has occurred yet. -/
def lastAnchorDet (env : PVEnv) (fi k : Nat) : Option (List Detection) :=
  if fi ≤ k then some (detAt env (fi * (k / fi))) else none

/-- What the loop writes to the encoder at frame `i`. -/
def writtenAt (env : PVEnv) (fi i : Nat) : WrittenFrame :=
  if i % fi = 0 then .anchor (detAt env i)
  else
    match lastAnchorDet env fi i with
    | none => .plain
    | some ds => if 0 < ds.length then .propagated ds else .plain

/-- The initial loop state (lines 188-190, 236-238). -/
def initLS : LoopState := ⟨[], 0, none, []⟩

/-- The loop state after frames `1..k` have been processed without error. -/
def expState (env : PVEnv) (fi : Nat) (hasOut : Bool) (k : Nat) : LoopState :=
  { frame_detections := (anchorIdxs k fi).map (mkFrameDetect env)
    total_persons := sumPC ((anchorIdxs k fi).map (mkFrameDetect env))
    last_detections := lastAnchorDet env fi k
    written := if hasOut then (List.range' 1 k).map (writtenAt env fi) else [] }

lemma anchorIdxs_zero (fi : Nat) : anchorIdxs 0 fi = [] := by
  simp [anchorIdxs]

lemma anchorIdxs_succ (k fi : Nat) :
    anchorIdxs (k + 1) fi =
      anchorIdxs k fi ++ (if (k + 1) % fi = 0 then [k + 1] else []) := by
  unfold anchorIdxs
  rw [List.range'_1_concat, List.filter_append]
  congr 1
  rw [Nat.add_comm 1 k]
  by_cases h : (k + 1) % fi = 0 <;> simp [h]

lemma anchorIdxs_length (fi : Nat) :
    ∀ k, (anchorIdxs k fi).length = k / fi := by
  intro k
  induction k with
  | zero => simp [anchorIdxs_zero, Nat.zero_div]
  | succ k ih =>
    rw [anchorIdxs_succ, List.length_append, ih, Nat.succ_div]
    have hdvd : fi ∣ k + 1 ↔ (k + 1) % fi = 0 :=
      Nat.dvd_iff_mod_eq_zero
    by_cases h : (k + 1) % fi = 0
    · rw [if_pos h, if_pos (hdvd.mpr h)]
      simp
    · rw [if_neg h, if_neg (fun hd => h (hdvd.mp hd))]
      simp

lemma lastAnchorDet_succ_anchor (env : PVEnv) (fi k : Nat)
    (h : (k + 1) % fi = 0) :
    lastAnchorDet env fi (k + 1) = some (detAt env (k + 1)) := by
  have hdvd : fi ∣ k + 1 := Nat.dvd_of_mod_eq_zero h
  have hle : fi ≤ k + 1 := Nat.le_of_dvd (Nat.succ_pos k) hdvd
  unfold lastAnchorDet
  rw [if_pos hle, Nat.mul_div_cancel' hdvd]

lemma lastAnchorDet_succ_nonanchor (env : PVEnv) (fi k : Nat)
    (h : (k + 1) % fi ≠ 0) :
    lastAnchorDet env fi (k + 1) = lastAnchorDet env fi k := by
  have hndvd : ¬ fi ∣ k + 1 := fun hd => h (Nat.dvd_iff_mod_eq_zero.mp hd)
  have hdiv : (k + 1) / fi = k / fi := Nat.succ_div_of_not_dvd hndvd
  have hle : fi ≤ k + 1 ↔ fi ≤ k := by
    constructor
    · intro hle
      rcases Nat.lt_or_ge k fi with hlt | hge
      · exfalso
        have : fi = k + 1 := Nat.le_antisymm hle hlt
        exact hndvd (this ▸ Dvd.intro 1 (by omega))
      · exact hge
    · intro hle; omega
  unfold lastAnchorDet
  by_cases hk : fi ≤ k
  · rw [if_pos (hle.mpr hk), if_pos hk, hdiv]
  · rw [if_neg (fun hc => hk (hle.mp hc)), if_neg hk]

lemma sumPC_append (l1 l2 : List FrameDetect) :
    sumPC (l1 ++ l2) = sumPC l1 + sumPC l2 := by
  simp [sumPC]

lemma sumDensity_append (l1 l2 : List FrameDetect) :
    sumDensity (l1 ++ l2) = sumDensity l1 + sumDensity l2 := by
  simp [sumDensity]

lemma range'_map_concat {α : Type} (f : Nat → α) (k : Nat) :
    (List.range' 1 (k + 1)).map f = (List.range' 1 k).map f ++ [f (k + 1)] := by
  rw [List.range'_1_concat, List.map_append]
  simp [Nat.add_comm 1 k]

/-- One successful step of the frame loop preserves the `expState`
characterization. -/
lemma stepFrame_expState (env : PVEnv) (fi : Nat) (hasOut : Bool) (k : Nat)
    (hfi : fi ≠ 0) (hfps : env.fps ≠ 0)
    (hw : hasOut = true → env.writeFail (k + 1) = false) :
    stepFrame env hasOut fi (k + 1) (expState env fi hasOut k) =
      .ok (expState env fi hasOut (k + 1)) := by
  by_cases hanchor : (k + 1) % fi = 0
  · cases hasOut with
    | false =>
      simp only [stepFrame, hfi, hanchor, hfps, if_true, if_false, ite_false, ite_true,
        Bool.false_eq_true, expState]
      rw [anchorIdxs_succ, if_pos hanchor, lastAnchorDet_succ_anchor env fi k hanchor,
        List.map_append, sumPC_append]
      simp [sumPC, detAt]
    | true =>
      simp only [stepFrame, hfi, hanchor, hfps, hw rfl, if_true, if_false, ite_false,
        ite_true, Bool.false_eq_true, expState]
      rw [anchorIdxs_succ, if_pos hanchor, lastAnchorDet_succ_anchor env fi k hanchor,
        List.map_append, sumPC_append, range'_map_concat]
      simp [sumPC, detAt, writtenAt, hanchor]
  · cases hasOut with
    | false =>
      simp only [stepFrame, hfi, hanchor, hfps, if_true, if_false, ite_false, ite_true,
        Bool.false_eq_true, expState]
      rw [anchorIdxs_succ, if_neg hanchor, List.append_nil,
        lastAnchorDet_succ_nonanchor env fi k hanchor]
    | true =>
      rcases hld : lastAnchorDet env fi k with _ | ds
      · simp only [stepFrame, hfi, hanchor, hfps, hw rfl, if_true, if_false, ite_false,
          ite_true, Bool.false_eq_true, expState, hld]
        rw [anchorIdxs_succ, if_neg hanchor, List.append_nil,
          lastAnchorDet_succ_nonanchor env fi k hanchor, hld, range'_map_concat]
        simp [writtenAt, hanchor, lastAnchorDet_succ_nonanchor env fi k hanchor, hld]
      · by_cases hlen : 0 < ds.length
        · simp only [stepFrame, hfi, hanchor, hfps, hw rfl, hlen, if_true, if_false,
            ite_false, ite_true, Bool.false_eq_true, expState, hld]
          rw [anchorIdxs_succ, if_neg hanchor, List.append_nil,
            lastAnchorDet_succ_nonanchor env fi k hanchor, hld, range'_map_concat]
          simp [writtenAt, hanchor, lastAnchorDet_succ_nonanchor env fi k hanchor, hld, hlen]
        · simp only [stepFrame, hfi, hanchor, hfps, hw rfl, hlen, if_true, if_false,
            ite_false, ite_true, Bool.false_eq_true, expState, hld]
          rw [anchorIdxs_succ, if_neg hanchor, List.append_nil,
            lastAnchorDet_succ_nonanchor env fi k hanchor, hld, range'_map_concat]
          simp [writtenAt, hanchor, lastAnchorDet_succ_nonanchor env fi k hanchor, hld, hlen]

lemma runLoop_append (env : PVEnv) (hasOut : Bool) (fi : Nat)
    (l1 l2 : List Nat) (s : LoopState) :
    runLoop env hasOut fi (l1 ++ l2) s =
      match runLoop env hasOut fi l1 s with
      | .error e => .error e
      | .ok s1 => runLoop env hasOut fi l2 s1 := by
  induction l1 generalizing s with
  | nil => simp [runLoop]
  | cons i rest ih =>
    show runLoop env hasOut fi (i :: (rest ++ l2)) s = _
    rw [runLoop]
    rcases hstep : stepFrame env hasOut fi i s with e | s1
    · simp [runLoop, hstep]
    · simp only [runLoop, hstep]
      exact ih s1

/-- The frame loop over frames `1..k`, when no write fails, succeeds and
reaches exactly the state described by `expState`. -/
lemma runLoop_expState (env : PVEnv) (fi : Nat) (hasOut : Bool)
    (hfi : fi ≠ 0) (hfps : env.fps ≠ 0) :
    ∀ k, (hasOut = true → ∀ i, 1 ≤ i → i ≤ k → env.writeFail i = false) →
    runLoop env hasOut fi (List.range' 1 k) initLS = .ok (expState env fi hasOut k) := by
  intro k
  induction k with
  | zero =>
    intro _
    show Except.ok initLS = _
    unfold initLS expState
    rw [anchorIdxs_zero]
    unfold lastAnchorDet
    rw [if_neg (by omega)]
    cases hasOut <;> simp [sumPC]
  | succ k ih =>
    intro hw
    rw [List.range'_1_concat, runLoop_append,
      ih (fun h i h1 h2 => hw h i h1 (by omega))]
    show runLoop env hasOut fi [1 + k] (expState env fi hasOut k) = _
    rw [runLoop, Nat.add_comm 1 k,
      stepFrame_expState env fi hasOut k hfi hfps (fun h => hw h (k+1) (by omega) (by omega))]
    rfl

/-- The loop state carried by the `WriteFailed` exception when the write
of frame `f` raises: at an anchor frame the frame result of `f` itself has
already been appended (line 252 runs before the write at line 261); at an
intermediate frame the state is untouched. -/
def expFailState (env : PVEnv) (fi f : Nat) : LoopState :=
  if f % fi = 0 then
    { frame_detections := (anchorIdxs f fi).map (mkFrameDetect env)
      total_persons := sumPC ((anchorIdxs f fi).map (mkFrameDetect env))
      last_detections := some (detAt env f)
      written := (List.range' 1 (f - 1)).map (writtenAt env fi) }
  else expState env fi true (f - 1)

/-- The frame results carried by the exception are exactly those of the
anchors `≤ f`. -/
lemma expFailState_frame_detections (env : PVEnv) (fi f : Nat) (h1 : 1 ≤ f) :
    (expFailState env fi f).frame_detections =
      (anchorIdxs f fi).map (mkFrameDetect env) := by
  unfold expFailState
  by_cases hanchor : f % fi = 0
  · rw [if_pos hanchor]
  · rw [if_neg hanchor]
    show (anchorIdxs (f - 1) fi).map (mkFrameDetect env) = _
    have h2 : anchorIdxs f fi = anchorIdxs (f - 1) fi := by
      conv_lhs => rw [show f = (f - 1) + 1 by omega]
      rw [anchorIdxs_succ, if_neg (by rwa [show (f - 1) + 1 = f by omega]),
        List.append_nil]
    rw [h2]

/-- A failing write at frame `k+1` raises `WriteFailed` carrying
`expFailState`. -/
lemma stepFrame_writeFail (env : PVEnv) (fi k : Nat)
    (hfi : fi ≠ 0) (hfps : env.fps ≠ 0)
    (hwf : env.writeFail (k + 1) = true) :
    stepFrame env true fi (k + 1) (expState env fi true k) =
      .error (.writeFailed, expFailState env fi (k + 1)) := by
  by_cases hanchor : (k + 1) % fi = 0
  · simp only [stepFrame, hfi, hanchor, hfps, hwf, if_true, if_false, ite_false,
      ite_true, Bool.false_eq_true, expState, expFailState, Nat.add_sub_cancel]
    rw [anchorIdxs_succ, if_pos hanchor, List.map_append, sumPC_append]
    simp [sumPC, detAt]
  · rcases hld : lastAnchorDet env fi k with _ | ds
    · simp only [stepFrame, hfi, hanchor, hfps, hwf, if_true, if_false, ite_false,
        ite_true, Bool.false_eq_true, expFailState, Nat.add_sub_cancel, hld,
        expState]
    · by_cases hlen : 0 < ds.length
      · simp only [stepFrame, hfi, hanchor, hfps, hwf, hlen, if_true, if_false,
          ite_false, ite_true, Bool.false_eq_true, expFailState, Nat.add_sub_cancel,
          hld, expState]
      · simp only [stepFrame, hfi, hanchor, hfps, hwf, hlen, if_true, if_false,
          ite_false, ite_true, Bool.false_eq_true, expFailState, Nat.add_sub_cancel,
          hld, expState]

/-- The frame loop with a first failing write at frame `f ≤ k` raises
`WriteFailed` carrying `expFailState env fi f`. -/
lemma runLoop_writeFail (env : PVEnv) (fi : Nat)
    (hfi : fi ≠ 0) (hfps : env.fps ≠ 0) (f k : Nat)
    (h1 : 1 ≤ f) (h2 : f ≤ k)
    (hw : ∀ i, 1 ≤ i → i < f → env.writeFail i = false)
    (hwf : env.writeFail f = true) :
    runLoop env true fi (List.range' 1 k) initLS =
      .error (.writeFailed, expFailState env fi f) := by
  have hsplit : List.range' 1 k = List.range' 1 (f - 1) ++ List.range' f (k - f + 1) := by
    have h := (List.range'_append_1 1 (f - 1) (k - f + 1)).symm
    rw [show 1 + (f - 1) = f by omega, show (k - f + 1) + (f - 1) = k by omega] at h
    exact h
  have hcons : List.range' f (k - f + 1) = f :: List.range' (f + 1) (k - f) :=
    List.range'_succ f (k - f) 1
  have hstep := stepFrame_writeFail env fi (f - 1) hfi hfps
    (by rw [show f - 1 + 1 = f by omega]; exact hwf)
  rw [show f - 1 + 1 = f by omega] at hstep
  rw [hsplit, runLoop_append,
    runLoop_expState env fi true hfi hfps (f - 1) (fun _ i hi1 hi2 => hw i hi1 (by omega)),
    hcons]
  show (match stepFrame env true fi f (expState env fi true (f - 1)) with
    | Except.error e => Except.error e
    | Except.ok s1 => runLoop env true fi (List.range' (f + 1) (k - f)) s1) =
      Except.error (PVError.writeFailed, expFailState env fi f)
  rw [hstep]

/-- `total_persons` (line 253) always equals the sum of `person_count`
over the collected frame results: one loop step preserves the invariant. -/
lemma stepFrame_total_inv (env : PVEnv) (hasOut : Bool) (fi i : Nat)
    (s s1 : LoopState) (h : stepFrame env hasOut fi i s = .ok s1)
    (hinv : s.total_persons = sumPC s.frame_detections) :
    s1.total_persons = sumPC s1.frame_detections := by
  simp only [stepFrame] at h
  repeat' split at h
  all_goals first
    | (injection h with h2; subst h2; simp_all [sumPC_append, sumPC])
    | injection h

/-- The loop preserves the `total_persons` invariant. -/
lemma runLoop_total_inv (env : PVEnv) (hasOut : Bool) (fi : Nat) :
    ∀ (l : List Nat) (s : LoopState),
      s.total_persons = sumPC s.frame_detections →
      ∀ s2, runLoop env hasOut fi l s = .ok s2 →
        s2.total_persons = sumPC s2.frame_detections := by
  intro l
  induction l with
  | nil =>
    intro s hinv s2 h
    rw [runLoop] at h
    injection h with h2
    subst h2
    exact hinv
  | cons i rest ih =>
    intro s hinv s2 h
    rw [runLoop] at h
    rcases hstep : stepFrame env hasOut fi i s with e | s1
    · rw [hstep] at h
      cases h
    · rw [hstep] at h
      exact ih s1 (stepFrame_total_inv env hasOut fi i s s1 hstep hinv) s2 h

/-- `frame_number` of the result computed at frame `i` is `i`. -/
lemma mkFrameDetect_frame_number (env : PVEnv) (i : Nat) :
    (mkFrameDetect env i).frame_number = i := by
  unfold mkFrameDetect
  by_cases h : env.height * env.width = 0 <;> simp [h]

/-- The `processed_frames` field of the returned dictionary. -/
def ResultDict.processed : ResultDict → Nat
  | .success _ pf _ _ _ _ _ => pf
  | .failure _ _ pf => pf

/-- The `average_person_count` field (0 on the error dictionary, which has
no such key). -/
def ResultDict.avgPersonCount : ResultDict → ℚ
  | .success _ _ apc _ _ _ _ => apc
  | .failure _ _ _ => 0

/-- The `average_density` field (0 on the error dictionary). -/
def ResultDict.avgDensity : ResultDict → ℚ
  | .success _ _ _ ad _ _ _ => ad
  | .failure _ _ _ => 0

/-! ### Claims -/

/-- Claim C5: for every failure mode of `_reencode_to_h264` (transcoder
unavailable / ImportError, non-zero exit status, timeout, or empty or
missing transcoded output) the function returns the original input path
unchanged and the temporary `_h264` output file does not survive the call,
and on success (zero exit and non-empty output) the transcoded file
replaces the original at the same path via `os.replace`.  No exception
escapes to the caller: `reencode_to_h264` is a total function covering
every outcome of `TEnv`. -/
theorem C5_transcode_failure_atomicity (env : TEnv) (input_path : String) :
    (reencode_to_h264 env input_path).returnedPath = input_path ∧
    (reencode_to_h264 env input_path).tempExists = false ∧
    ((reencode_to_h264 env input_path).originalReplaced = true ↔
      (env.importOk = true ∧ env.outcome = RunOutcome.completed 0 ∧
       env.tempCreated = true ∧ 0 < env.tempSize)) := by
  rcases env with ⟨io, oc, tc, ts⟩
  cases io
  · simp [reencode_to_h264, reencodeBody]
  · rcases oc with rc | _ | _
    · by_cases hc : rc = 0 ∧ tc = true ∧ 0 < ts
      · obtain ⟨h1, h2, h3⟩ := hc
        subst h1
        simp [reencode_to_h264, reencodeBody, h2, h3]
      · simp only [reencode_to_h264, reencodeBody, Bool.not_true]
        rw [if_neg (by simp)]
        rcases Classical.em (rc = 0 ∧ tc = true ∧ 0 < ts) with h | h
        · exact absurd h hc
        · rw [if_neg (by tauto)]
          refine ⟨rfl, rfl, ?_, ?_⟩
          · intro hfalse
            cases hfalse
          · intro hconj
            obtain ⟨ha, hb, hcc1, hcc2⟩ := hconj
            injection hb with hb2
            exact absurd ⟨hb2, hcc1, hcc2⟩ h
    · simp [reencode_to_h264, reencodeBody]
    · simp [reencode_to_h264, reencodeBody]

/-- When every candidate fails to open, negotiation attempts them all and
selects none. -/
lemma negotiate_all_fail (opens : String → Bool) (path : String) :
    ∀ cs : List String, (∀ c ∈ cs, opens c = false) →
      negotiate opens path cs = (none, cs) := by
  intro cs
  induction cs with
  | nil => intro _; rfl
  | cons c rest ih =>
    intro hall
    rw [negotiate, hall c (List.mem_cons_self c rest)]
    simp only [Bool.false_eq_true, if_false]
    rw [ih (fun c2 hc2 => hall c2 (List.mem_cons_of_mem c hc2))]

/-- Claim C4: (1) if the first `K` codec candidates fail to open and
candidate `K+1` opens, the negotiation loop selects exactly candidate
`K+1` (with its per-candidate target path) and attempts no candidate
after it — the attempted list is exactly the first `K+1` candidates;
(2) the `MJPG` candidate rewrites `'.mp4'` to `'.avi'` in the output
path whenever the path does not already end in `'.avi'`;
(3) if every candidate fails, `process_video` raises `NoUsableEncoder`
before any frame is written (the written list is empty and no handle was
opened). -/
theorem C4_codec_negotiation :
    (∀ (opens : String → Bool) (path : String) (l1 : List String) (c : String)
        (l2 : List String),
        (∀ c2 ∈ l1, opens c2 = false) → opens c = true →
        negotiate opens path (l1 ++ c :: l2) =
          (some (c, mjpgPath c path), l1 ++ [c])) ∧
    (∀ path : String, strEndsWith path ".avi" = false →
        mjpgPath "MJPG" path = strReplace path ".mp4" ".avi") ∧
    (∀ (env : PVEnv) (p : String) (fi : Nat),
        env.sourceOpens = true → (∀ c, env.codecOpens c = false) →
        process_video env (some p) fi =
          (ResultDict.failure PVError.noUsableEncoder 0 0,
           { capReleased := false, outOpened := false, outReleased := false,
             usedCodec := none, written := [], collected := [],
             transcodeInvoked := false })) := by
  refine ⟨?_, ?_, ?_⟩
  · intro opens path l1 c l2 hfail hsucc
    induction l1 with
    | nil =>
      rw [List.nil_append, negotiate, hsucc]
      rfl
    | cons c1 rest ih =>
      rw [List.cons_append, negotiate, hfail c1 (List.mem_cons_self c1 rest)]
      simp only [Bool.false_eq_true, if_false]
      rw [ih (fun c2 hc2 => hfail c2 (List.mem_cons_of_mem c1 hc2))]
      rfl
  · intro path hnavi
    unfold mjpgPath
    rw [if_pos ⟨rfl, hnavi⟩]
  · intro env p fi hsrc hall
    have hneg := negotiate_all_fail env.codecOpens p fourccOptions
      (fun c _ => hall c)
    simp [process_video, hsrc, hneg]

/-- Witness for C4: on the source's candidate list with `mp4v` and `XVID`
failing and `MJPG` opening, negotiation selects `MJPG`, rewrites the path,
and attempts exactly the first three candidates. -/
theorem C4_codec_negotiation_witness :
    negotiate (fun c => c == "MJPG") "out.mp4" (["mp4v", "XVID"] ++ "MJPG" :: ["avc1", "H264"]) =
      (some ("MJPG", mjpgPath "MJPG" "out.mp4"), ["mp4v", "XVID"] ++ ["MJPG"]) :=
  C4_codec_negotiation.1 (fun c => c == "MJPG") "out.mp4" ["mp4v", "XVID"] "MJPG"
    ["avc1", "H264"] (by decide) (by decide)

/-- Claim C3, counterexample to the claim as stated: at `person_count = 1`
and frame area `1500 * 1500 = 2250000` the returned `density_percentage`
is `0.33` (the source rounds to two decimals at line 150), while
`min(100, person_count * 7500 / area * 100) = 1/3 ≠ 0.33`. -/
theorem C3_density_counterexample :
    densityPercentage 1 2250000 = 33/100 ∧
    min 100 (((1 * 7500 : Nat) : ℚ) / ((2250000 : Nat) : ℚ) * 100) = 1/3 ∧
    (33/100 : ℚ) ≠ 1/3 := by
  refine ⟨by decide, by decide, by decide⟩

/-- Claim C3 (amended): `density_percentage` is a deterministic function
of `person_count` and the frame's pixel area only, equal to
`round(min(100, person_count * 7500 / area * 100), 2)` — the claimed
formula rounded half-to-even to two decimal places — and always lies in
`[0, 100]`; it equals `0` when `person_count = 0` and saturates at
exactly `100` once `area ≤ 7500 * person_count`, in particular for
arbitrarily large `person_count`. -/
theorem C3_density_amended (pc area : Nat) (harea : 0 < area) :
    densityPercentage pc area =
      round2 (min 100 (((pc * 7500 : Nat) : ℚ) / ((area : Nat) : ℚ) * 100)) ∧
    0 ≤ densityPercentage pc area ∧ densityPercentage pc area ≤ 100 ∧
    (pc = 0 → densityPercentage pc area = 0) ∧
    (area ≤ 7500 * pc → densityPercentage pc area = 100) := by
  have h0 : 0 ≤ rawDensity pc area := by
    refine le_min (by norm_num) ?_
    positivity
  have h100 : rawDensity pc area ≤ 100 := min_le_left _ _
  refine ⟨rfl, round2_nonneg h0, round2_le_100 h100, ?_, ?_⟩
  · intro hpc
    subst hpc
    have : rawDensity 0 area = 0 := by
      unfold rawDensity
      norm_num
    unfold densityPercentage
    rw [this]
    decide
  · intro hsat
    have harea2 : (0:ℚ) < (area : ℚ) := by exact_mod_cast harea
    have h1 : ((area : Nat) : ℚ) ≤ ((pc * 7500 : Nat) : ℚ) := by
      exact_mod_cast (by omega : area ≤ pc * 7500)
    have h2 : (1:ℚ) ≤ ((pc * 7500 : Nat) : ℚ) / ((area : Nat) : ℚ) :=
      (one_le_div harea2).mpr h1
    have h3 : (100:ℚ) ≤ ((pc * 7500 : Nat) : ℚ) / ((area : Nat) : ℚ) * 100 := by
      linarith
    have hraw : rawDensity pc area = 100 := by
      unfold rawDensity
      exact min_eq_left h3
    unfold densityPercentage
    rw [hraw]
    decide

/-- Witness for the amended C3 at `person_count = 2`, area `10000`. -/
theorem C3_density_amended_witness :
    0 < 10000 ∧
    (densityPercentage 2 10000 =
        round2 (min 100 (((2 * 7500 : Nat) : ℚ) / ((10000 : Nat) : ℚ) * 100)) ∧
      0 ≤ densityPercentage 2 10000 ∧ densityPercentage 2 10000 ≤ 100 ∧
      (2 = 0 → densityPercentage 2 10000 = 0) ∧
      (10000 ≤ 7500 * 2 → densityPercentage 2 10000 = 100)) :=
  ⟨by decide, C3_density_amended 2 10000 (by decide)⟩

/-- On a non-anchor frame, the boxes drawn are exactly the detections of
the greatest anchor index `≤ i` (namely `fi * (i / fi)`), or nothing when
no anchor has occurred yet; note that when the last anchor's detection set
is empty the source writes the plain frame (line 285), which draws the
same (empty) set of boxes. -/
lemma drawnBoxes_writtenAt_nonanchor (env : PVEnv) (fi i : Nat)
    (hna : i % fi ≠ 0) :
    drawnBoxes (writtenAt env fi i) =
      (if fi ≤ i then detAt env (fi * (i / fi)) else []) := by
  unfold writtenAt
  rw [if_neg hna]
  unfold lastAnchorDet
  by_cases hle : fi ≤ i
  · rw [if_pos hle, if_pos hle]
    by_cases hlen : 0 < (detAt env (fi * (i / fi))).length
    · simp [hlen, drawnBoxes]
    · have : detAt env (fi * (i / fi)) = [] := by
        rcases h : detAt env (fi * (i / fi)) with _ | ⟨a, b⟩
        · rfl
        · rw [h] at hlen
          simp at hlen
      simp [hlen, drawnBoxes, this]
  · rw [if_neg hle, if_neg hle]
    rfl

/-- Claim C1 (propagation invariant): in a completed run with an output
writer, every non-anchor frame `i` (`i % frame_interval ≠ 0`) is written
with exactly the detection set computed at the greatest anchor frame index
`≤ i`, i.e. `frame_interval * (i / frame_interval)`; if no anchor has
occurred yet (`i < frame_interval`), the frame is written with no boxes.
Since the drawn set is a function of the detector outputs at indices
`≤ i` only, a future anchor's detections are never applied to an earlier
frame. -/
theorem C1_propagation_invariant (env : PVEnv) (p c p2 : String)
    (att : List String) (fi : Nat)
    (hfi : fi ≠ 0) (hfps : env.fps ≠ 0) (hsrc : env.sourceOpens = true)
    (hw : ∀ j, env.writeFail j = false)
    (hneg : negotiate env.codecOpens p fourccOptions = (some (c, p2), att))
    (i : Nat) (hi1 : 1 ≤ i) (hi2 : i ≤ env.numFrames) (hna : i % fi ≠ 0) :
    ((process_video env (some p) fi).2.written.map drawnBoxes)[i - 1]? =
      some (if fi ≤ i then detAt env (fi * (i / fi)) else []) := by
  have hloop := runLoop_expState env fi true hfi hfps env.numFrames
    (fun _ j _ _ => hw j)
  simp only [initLS] at hloop
  simp only [process_video, hsrc, if_true, hneg, runJob, Option.isSome_some, hloop]
  show (((expState env fi true env.numFrames).written).map drawnBoxes)[i - 1]? = _
  unfold expState
  rw [if_pos rfl, List.map_map]
  rw [List.getElem?_map, List.getElem?_range' 1 1 (by omega : i - 1 < env.numFrames)]
  rw [show 1 + 1 * (i - 1) = i by omega]
  simp [Function.comp, drawnBoxes_writtenAt_nonanchor env fi i hna]

/-- Environment for the C1 witness: three frames, anchors every 2 frames,
a detection at anchor frame 2, and a writer that opens with `mp4v`. -/
def envC1 : PVEnv :=
  { sourceOpens := true, fps := 1, width := 100, height := 100, numFrames := 3,
    det := fun i => if i = 2 then [⟨1, 2, 3, 4, 9/10⟩] else [],
    codecOpens := fun c => c == "mp4v", writeFail := fun _ => false,
    outputFileExists := true,
    tenv := ⟨true, .completed 0, true, 1⟩ }

/-- Witness for C1: in the concrete run, non-anchor frame 3 is drawn with
the detections of anchor frame 2. -/
theorem C1_propagation_invariant_witness :
    ((process_video envC1 (some "out.mp4") 2).2.written.map drawnBoxes)[3 - 1]? =
      some (if 2 ≤ 3 then detAt envC1 (2 * (3 / 2)) else []) :=
  C1_propagation_invariant envC1 "out.mp4" "mp4v" "out.mp4" ["mp4v"] 2
    (by decide) (by decide) rfl (fun j => rfl)
    (by decide) 3 (by decide) (by decide) (by decide)

lemma expState_fd_length (env : PVEnv) (fi : Nat) (hasOut : Bool) (N : Nat) :
    (expState env fi hasOut N).frame_detections.length = N / fi := by
  unfold expState
  rw [List.length_map, anchorIdxs_length]

lemma expState_fd_numbers (env : PVEnv) (fi : Nat) (hasOut : Bool) (N : Nat) :
    (expState env fi hasOut N).frame_detections.map (·.frame_number) =
      anchorIdxs N fi := by
  unfold expState
  rw [List.map_map]
  have h : ∀ i ∈ anchorIdxs N fi,
      ((fun fd => FrameDetect.frame_number fd) ∘ mkFrameDetect env) i = i :=
    fun i _ => mkFrameDetect_frame_number env i
  rw [List.map_congr_left h]
  exact List.map_id' (anchorIdxs N fi)

/-- Claim C2: for every `frame_interval ≥ 1` and a source yielding `N`
frames, a completed run of `process_video` produces exactly
`⌊N / frame_interval⌋` frame results: `processed_frames` equals
`N / frame_interval`, and the `frame_number` fields of the collected
results are exactly the indices in `1..N` divisible by `frame_interval`
(frames counted from 1). -/
theorem C2_frame_result_count (env : PVEnv) (outp : Option String) (fi : Nat)
    (hfi : fi ≠ 0) (hfps : env.fps ≠ 0) (hsrc : env.sourceOpens = true)
    (hw : ∀ j, env.writeFail j = false)
    (hneg : ∀ p, outp = some p →
      (negotiate env.codecOpens p fourccOptions).1.isSome = true) :
    ((process_video env outp fi).1).isSuccess = true ∧
    ((process_video env outp fi).1).processed = env.numFrames / fi ∧
    (process_video env outp fi).2.collected.length = env.numFrames / fi ∧
    (process_video env outp fi).2.collected.map (·.frame_number) =
      anchorIdxs env.numFrames fi := by
  cases outp with
  | none =>
    have hloop := runLoop_expState env fi false hfi hfps env.numFrames
      (fun hcon => nomatch hcon)
    simp only [initLS] at hloop
    simp only [process_video, hsrc, if_true, runJob, Option.isSome_none, hloop]
    refine ⟨rfl, ?_, ?_, ?_⟩
    · show (expState env fi false env.numFrames).frame_detections.length = _
      exact expState_fd_length env fi false env.numFrames
    · exact expState_fd_length env fi false env.numFrames
    · exact expState_fd_numbers env fi false env.numFrames
  | some p =>
    have hsome := hneg p rfl
    rcases hh : negotiate env.codecOpens p fourccOptions with ⟨r, att⟩
    rcases r with _ | cp
    · rw [hh] at hsome
      simp at hsome
    · have hloop := runLoop_expState env fi true hfi hfps env.numFrames
        (fun _ j _ _ => hw j)
      simp only [initLS] at hloop
      simp only [process_video, hsrc, if_true, hh, runJob, Option.isSome_some, hloop]
      refine ⟨rfl, ?_, ?_, ?_⟩
      · show (expState env fi true env.numFrames).frame_detections.length = _
        exact expState_fd_length env fi true env.numFrames
      · exact expState_fd_length env fi true env.numFrames
      · exact expState_fd_numbers env fi true env.numFrames

/-- Environment for the C2 witness: five frames, no output writer. -/
def envC2 : PVEnv :=
  { sourceOpens := true, fps := 2, width := 100, height := 100, numFrames := 5,
    det := fun _ => [], codecOpens := fun _ => false,
    writeFail := fun _ => false, outputFileExists := false,
    tenv := ⟨true, .completed 0, true, 1⟩ }

/-- Witness for C2: five frames at `frame_interval = 2` yield exactly
`⌊5 / 2⌋ = 2` frame results, at frames 2 and 4. -/
theorem C2_frame_result_count_witness :
    ((process_video envC2 none 2).1).isSuccess = true ∧
    ((process_video envC2 none 2).1).processed = envC2.numFrames / 2 ∧
    (process_video envC2 none 2).2.collected.length = envC2.numFrames / 2 ∧
    (process_video envC2 none 2).2.collected.map (·.frame_number) =
      anchorIdxs envC2.numFrames 2 :=
  C2_frame_result_count envC2 none 2 (by decide) (by decide) rfl
    (fun j => rfl) (fun p h => nomatch h)

/-- Environment for C6: five frames, every frame an anchor, one person
detected at frame 1, and a write that raises at frame 3. -/
def envC6 : PVEnv :=
  { sourceOpens := true, fps := 1, width := 100, height := 100, numFrames := 5,
    det := fun i => if i = 1 then [⟨0, 0, 10, 10, 9/10⟩] else [],
    codecOpens := fun c => c == "mp4v",
    writeFail := fun i => decide (i = 3), outputFileExists := true,
    tenv := ⟨true, .completed 0, true, 1⟩ }

/-- Claim C6, counterexample to the claim as stated: with a write failure
at frame 3, three frame results had been collected, but the job returns
the error dictionary of lines 316-320 with `processed_frames = 0` and no
aggregates — the collected results are discarded, not aggregated. -/
theorem C6_write_failure_counterexample :
    (process_video envC6 (some "out.mp4") 1).1 =
      ResultDict.failure PVError.writeFailed 0 0 ∧
    (process_video envC6 (some "out.mp4") 1).2.collected.length = 3 ∧
    ((process_video envC6 (some "out.mp4") 1).1).processed = 0 := by
  refine ⟨by decide, by decide, by decide⟩

/-- Claim C6 (amended): if a write raises at frame `f` mid-job, the
remaining frame loop is aborted and the `f / frame_interval` FrameResults
collected before the failure are discarded: the job returns the error
dictionary `{'error': ..., 'total_frames': 0, 'processed_frames': 0}`
with no aggregates, and no handle is released. -/
theorem C6_write_failure_amended (env : PVEnv) (p c p2 : String)
    (att : List String) (fi f : Nat)
    (hfi : fi ≠ 0) (hfps : env.fps ≠ 0) (hsrc : env.sourceOpens = true)
    (hneg : negotiate env.codecOpens p fourccOptions = (some (c, p2), att))
    (h1 : 1 ≤ f) (h2 : f ≤ env.numFrames)
    (hw : ∀ i, 1 ≤ i → i < f → env.writeFail i = false)
    (hwf : env.writeFail f = true) :
    process_video env (some p) fi =
      (ResultDict.failure PVError.writeFailed 0 0,
       { capReleased := false, outOpened := true, outReleased := false,
         usedCodec := some c,
         written := (expFailState env fi f).written,
         collected := (expFailState env fi f).frame_detections,
         transcodeInvoked := false }) ∧
    (expFailState env fi f).frame_detections.length = f / fi := by
  have hloop := runLoop_writeFail env fi hfi hfps f env.numFrames h1 h2 hw hwf
  simp only [initLS] at hloop
  refine ⟨?_, ?_⟩
  · simp only [process_video, hsrc, if_true, hneg, runJob, Option.isSome_some, hloop]
  · rw [expFailState_frame_detections env fi f h1, List.length_map, anchorIdxs_length]

/-- Witness for the amended C6 on the concrete environment `envC6`. -/
theorem C6_write_failure_amended_witness :
    (process_video envC6 (some "out.mp4") 1 =
      (ResultDict.failure PVError.writeFailed 0 0,
       { capReleased := false, outOpened := true, outReleased := false,
         usedCodec := some "mp4v",
         written := (expFailState envC6 1 3).written,
         collected := (expFailState envC6 1 3).frame_detections,
         transcodeInvoked := false }) ∧
    (expFailState envC6 1 3).frame_detections.length = 3 / 1) :=
  C6_write_failure_amended envC6 "out.mp4" "mp4v" "out.mp4" ["mp4v"] 1 3
    (by decide) (by decide) rfl (by decide) (by decide) (by decide)
    (by intro i hi1 hi2; simp [envC6]; omega) (by decide)

/-- Environment for C7: a writer opened with `mp4v` and a write that
raises at frame 3. -/
def envC7 : PVEnv :=
  { sourceOpens := true, fps := 1, width := 100, height := 100, numFrames := 5,
    det := fun i => if i = 1 then [⟨0, 0, 10, 10, 9/10⟩] else [],
    codecOpens := fun c => c == "mp4v",
    writeFail := fun i => decide (i = 3), outputFileExists := true,
    tenv := ⟨true, .completed 0, true, 1⟩ }

/-- Claim C7, counterexample to the claim as stated: on the write-failure
exit of `process_video` the decoder and the opened encoder handle are both
left unreleased — the `except` handler of lines 314-320 returns without
calling `cap.release()` or `out.release()`, and there is no `finally`. -/
theorem C7_handle_release_counterexample :
    (process_video envC7 (some "out.mp4") 1).1 =
      ResultDict.failure PVError.writeFailed 0 0 ∧
    (process_video envC7 (some "out.mp4") 1).2.outOpened = true ∧
    (process_video envC7 (some "out.mp4") 1).2.capReleased = false ∧
    (process_video envC7 (some "out.mp4") 1).2.outReleased = false := by
  refine ⟨by decide, by decide, by decide, by decide⟩

/-- Claim C7 (amended): the decoder handle is released exactly on the
successful exit of `process_video`, and the encoder handle is released
exactly when the run succeeded and an encoder had been opened; on every
error exit (source unreadable, no usable encoder, write failure, division
by zero) neither handle is released. -/
theorem C7_handle_release_amended (env : PVEnv) (outp : Option String) (fi : Nat) :
    (process_video env outp fi).2.capReleased =
      ((process_video env outp fi).1).isSuccess ∧
    (process_video env outp fi).2.outReleased =
      (((process_video env outp fi).1).isSuccess &&
        (process_video env outp fi).2.outOpened) := by
  by_cases hs : env.sourceOpens
  · cases outp with
    | none =>
      rcases hrl : runLoop env false fi (List.range' 1 env.numFrames) initLS
        with ⟨e1, s1⟩ | s
      all_goals simp only [initLS] at hrl
      · simp [process_video, hs, runJob, hrl, ResultDict.isSuccess]
      · simp [process_video, hs, runJob, hrl, ResultDict.isSuccess]
    | some p =>
      rcases hh : negotiate env.codecOpens p fourccOptions with ⟨r, att⟩
      rcases r with _ | cp
      · simp [process_video, hs, hh, ResultDict.isSuccess]
      · rcases hrl : runLoop env true fi (List.range' 1 env.numFrames) initLS
          with ⟨e1, s1⟩ | s
        all_goals simp only [initLS] at hrl
        · simp [process_video, hs, hh, runJob, hrl, ResultDict.isSuccess]
        · simp [process_video, hs, hh, runJob, hrl, ResultDict.isSuccess]
  · simp [process_video, hs, ResultDict.isSuccess]

/-- Environment for the C8 counterexample: only `MJPG` opens, so the
output path is rewritten from `.mp4` to `.avi`. -/
def envC8m : PVEnv :=
  { sourceOpens := true, fps := 1, width := 100, height := 100, numFrames := 1,
    det := fun _ => [], codecOpens := fun c => c == "MJPG",
    writeFail := fun _ => false, outputFileExists := true,
    tenv := ⟨true, .completed 0, true, 1⟩ }

/-- Claim C8, counterexample to the claim as stated: a job in which the
writer opened (with `MJPG`), every frame was written and the output file
exists, yet the transcode pass does not run — the guard at line 296 checks
`output_path.endswith('.mp4')` and the negotiated `MJPG` candidate had
rewritten the path to `.avi`. -/
theorem C8_transcode_counterexample :
    (process_video envC8m (some "out.mp4") 1).1 =
      ResultDict.success 1 1 0 0 [⟨0, 0, [], 1, 1⟩] (some "out.avi") true ∧
    (process_video envC8m (some "out.mp4") 1).2.outOpened = true ∧
    (process_video envC8m (some "out.mp4") 1).2.transcodeInvoked = false := by
  refine ⟨by decide, by decide, by decide⟩

/-- Claim C8 (amended): in a job whose writer opened and whose frame loop
completed, the transcode pass runs exactly when the output file exists and
the negotiated output path (after any codec-driven extension rewrite)
still ends in `'.mp4'`; it is a single call site (line 297), hence at most
one invocation per job. -/
theorem C8_transcode_condition (env : PVEnv) (p c p2 : String)
    (att : List String) (fi : Nat) (s : LoopState)
    (hsrc : env.sourceOpens = true)
    (hneg : negotiate env.codecOpens p fourccOptions = (some (c, p2), att))
    (hloop : runLoop env true fi (List.range' 1 env.numFrames) initLS = .ok s) :
    (process_video env (some p) fi).2.transcodeInvoked =
      (env.outputFileExists && strEndsWith p2 ".mp4") := by
  simp only [initLS] at hloop
  simp only [process_video, hsrc, if_true, hneg, runJob, Option.isSome_some, hloop]
  by_cases he : env.outputFileExists <;> by_cases hm : strEndsWith p2 ".mp4" <;>
    simp [he, hm]

/-- Environment for the C8 witness: `mp4v` opens, path keeps `.mp4`. -/
def envC8 : PVEnv :=
  { sourceOpens := true, fps := 1, width := 100, height := 100, numFrames := 1,
    det := fun _ => [], codecOpens := fun c => c == "mp4v",
    writeFail := fun _ => false, outputFileExists := true,
    tenv := ⟨true, .completed 0, true, 1⟩ }

/-- Witness for the amended C8: with `mp4v` selected and the file present,
the transcode pass runs. -/
theorem C8_transcode_condition_witness :
    (process_video envC8 (some "out.mp4") 1).2.transcodeInvoked =
      (envC8.outputFileExists && strEndsWith "out.mp4" ".mp4") :=
  C8_transcode_condition envC8 "out.mp4" "mp4v" "out.mp4" ["mp4v"] 1
    ⟨[⟨0, 0, [], 1, 1⟩], 0, some [], [WrittenFrame.anchor []]⟩
    rfl (by decide) (by rfl)

/-- Characterization of the success dictionary of `runJob`: the fields of
lines 304-312 in terms of the final loop state (exposed as
`eff.collected`). -/
lemma runJob_success_inv (env : PVEnv) (outPath : Option String)
    (usedCodec : Option String) (fi : Nat) (tf pf : Nat) (apc ad : ℚ)
    (fds : List FrameDetect) (ov : Option String) (oe : Bool) (eff : Effects)
    (h : runJob env outPath usedCodec fi =
      (ResultDict.success tf pf apc ad fds ov oe, eff)) :
    tf = env.numFrames ∧
    pf = eff.collected.length ∧
    fds = eff.collected.take 100 ∧
    apc = round2 (if eff.collected.length = 0 then 0
      else (sumPC eff.collected : ℚ) / (eff.collected.length : ℚ)) ∧
    ad = round2 (if eff.collected.length = 0 then 0
      else sumDensity eff.collected / (eff.collected.length : ℚ)) := by
  simp only [runJob] at h
  rcases hrl : runLoop env outPath.isSome fi (List.range' 1 env.numFrames)
      ⟨[], 0, none, []⟩ with ⟨e1, s1⟩ | s
  · rw [hrl] at h
    injection h with hL hR
    injection hL
  · rw [hrl] at h
    have htot : s.total_persons = sumPC s.frame_detections :=
      runLoop_total_inv env outPath.isSome fi _ _ rfl s hrl
    injection h with hL hR
    subst hR
    injection hL with h1 h2 h3 h4 h5 h6 h7
    subst h1
    subst h2
    subst h3
    subst h4
    subst h5
    refine ⟨rfl, rfl, rfl, ?_, rfl⟩
    rw [htot]

/-- Lift of `runJob_success_inv` through `process_video`. -/
lemma process_video_success_inv (env : PVEnv) (outp : Option String)
    (fi : Nat) (tf pf : Nat) (apc ad : ℚ) (fds : List FrameDetect)
    (ov : Option String) (oe : Bool) (eff : Effects)
    (h : process_video env outp fi =
      (ResultDict.success tf pf apc ad fds ov oe, eff)) :
    tf = env.numFrames ∧
    pf = eff.collected.length ∧
    fds = eff.collected.take 100 ∧
    apc = round2 (if eff.collected.length = 0 then 0
      else (sumPC eff.collected : ℚ) / (eff.collected.length : ℚ)) ∧
    ad = round2 (if eff.collected.length = 0 then 0
      else sumDensity eff.collected / (eff.collected.length : ℚ)) := by
  by_cases hs : env.sourceOpens = true
  · cases outp with
    | none =>
      simp only [process_video, hs, if_true] at h
      exact runJob_success_inv env none none fi tf pf apc ad fds ov oe eff h
    | some p =>
      rcases hh : negotiate env.codecOpens p fourccOptions with ⟨r, att⟩
      rcases r with _ | cp
      · simp only [process_video, hs, if_true, hh] at h
        injection h with hL hR
        injection hL
      · simp only [process_video, hs, if_true, hh] at h
        exact runJob_success_inv env (some cp.2) (some cp.1) fi tf pf apc ad fds ov oe eff h
  · simp only [process_video, if_neg hs] at h
    injection h with hL hR
    injection hL

/-- Environment for the C9 counterexample: three frames, every frame an
anchor, one person detected at frame 1 only, so the exact average is
`1/3`. -/
def envC9 : PVEnv :=
  { sourceOpens := true, fps := 1, width := 100, height := 100, numFrames := 3,
    det := fun i => if i = 1 then [⟨0, 0, 10, 10, 9/10⟩] else [],
    codecOpens := fun _ => false, writeFail := fun _ => false,
    outputFileExists := false,
    tenv := ⟨true, .completed 0, true, 1⟩ }

/-- Claim C9, counterexample to the claim as stated: with person counts
`1, 0, 0` over three frame results, `sum / processed = 1/3`, but the
returned `average_person_count` is `round(1/3, 2) = 0.33` (line 307), so
the field does not equal `sum(person_count) / processed_frames`. -/
theorem C9_aggregator_counterexample :
    ((process_video envC9 none 1).1).avgPersonCount = 33/100 ∧
    sumPC (process_video envC9 none 1).2.collected = 1 ∧
    (process_video envC9 none 1).2.collected.length = 3 ∧
    ((process_video envC9 none 1).1).processed = 3 ∧
    (33/100 : ℚ) ≠ (1 : ℚ) / 3 := by
  refine ⟨by decide, by decide, by decide, by decide, by decide⟩

/-- Claim C9 (amended): on every successful job,
`average_person_count = round(sum(person_count) / processed_frames, 2)`
and `average_density = round(sum(density_percentage) / processed_frames, 2)`
— the exact averages of the claim, rounded to two decimal places — with
both fields equal to 0 when there are no FrameResults; and a 0-frame
source yields `total_frames = 0`, `processed_frames = 0`, zero averages
and no fatal error. -/
theorem C9_aggregator_amended :
    (∀ (env : PVEnv) (outp : Option String) (fi : Nat) (tf pf : Nat)
        (apc ad : ℚ) (fds : List FrameDetect) (ov : Option String)
        (oe : Bool) (eff : Effects),
        process_video env outp fi =
          (ResultDict.success tf pf apc ad fds ov oe, eff) →
        pf = eff.collected.length ∧
        apc = round2 (if eff.collected.length = 0 then 0
          else (sumPC eff.collected : ℚ) / (eff.collected.length : ℚ)) ∧
        ad = round2 (if eff.collected.length = 0 then 0
          else sumDensity eff.collected / (eff.collected.length : ℚ)) ∧
        (eff.collected = [] → apc = 0 ∧ ad = 0)) ∧
    (∀ (env : PVEnv) (fi : Nat), env.numFrames = 0 → env.sourceOpens = true →
        process_video env none fi =
          (ResultDict.success 0 0 0 0 [] none false,
           { capReleased := true, outOpened := false, outReleased := false,
             usedCodec := none, written := [], collected := [],
             transcodeInvoked := false })) := by
  constructor
  · intro env outp fi tf pf apc ad fds ov oe eff h
    obtain ⟨h1, h2, h3, h4, h5⟩ :=
      process_video_success_inv env outp fi tf pf apc ad fds ov oe eff h
    refine ⟨h2, h4, h5, ?_⟩
    intro hnil
    rw [h4, h5, hnil]
    constructor <;> decide
  · intro env fi hN hsrc
    have h0 : round2 (0 : ℚ) = 0 := by decide
    simp [process_video, hsrc, runJob, hN, runLoop, initLS, h0]

/-- The frame results of the concrete C9 run. -/
def fdsC9 : List FrameDetect :=
  [⟨1, 75, [⟨0, 0, 10, 10, 9/10⟩], 1, 1⟩, ⟨0, 0, [], 2, 2⟩, ⟨0, 0, [], 3, 3⟩]

/-- The effects of the concrete C9 run. -/
def effC9 : Effects :=
  { capReleased := true, outOpened := false, outReleased := false,
    usedCodec := none, written := [], collected := fdsC9,
    transcodeInvoked := false }

/-- Witness for the amended C9 on the concrete run `envC9`: the returned
averages are the rounded exact averages. -/
theorem C9_aggregator_amended_witness :
    3 = effC9.collected.length ∧
    (33/100 : ℚ) = round2 (if effC9.collected.length = 0 then 0
      else (sumPC effC9.collected : ℚ) / (effC9.collected.length : ℚ)) ∧
    (25 : ℚ) = round2 (if effC9.collected.length = 0 then 0
      else sumDensity effC9.collected / (effC9.collected.length : ℚ)) ∧
    (effC9.collected = [] → (33/100 : ℚ) = 0 ∧ (25 : ℚ) = 0) :=
  C9_aggregator_amended.1 envC9 none 1 3 3 (33/100) 25 fdsC9 none false effC9
    (by decide)

/-- Claim C10 (implicit response truncation): on every successful job the
returned `frame_detections` list is exactly the first
`min(processed_frames, 100)` FrameResults in frame order
(`frame_detections[:100]`, line 309), while `processed_frames` and both
averages are computed over all collected FrameResults. -/
theorem C10_response_truncation (env : PVEnv) (outp : Option String)
    (fi : Nat) (tf pf : Nat) (apc ad : ℚ) (fds : List FrameDetect)
    (ov : Option String) (oe : Bool) (eff : Effects)
    (h : process_video env outp fi =
      (ResultDict.success tf pf apc ad fds ov oe, eff)) :
    fds = eff.collected.take 100 ∧
    fds.length = min 100 eff.collected.length ∧
    pf = eff.collected.length ∧
    apc = round2 (if eff.collected.length = 0 then 0
      else (sumPC eff.collected : ℚ) / (eff.collected.length : ℚ)) ∧
    ad = round2 (if eff.collected.length = 0 then 0
      else sumDensity eff.collected / (eff.collected.length : ℚ)) := by
  obtain ⟨h1, h2, h3, h4, h5⟩ :=
    process_video_success_inv env outp fi tf pf apc ad fds ov oe eff h
  refine ⟨h3, ?_, h2, h4, h5⟩
  rw [h3, List.length_take]

/-- Environment for the C10 witness: two frames, no detections. -/
def envC10 : PVEnv :=
  { sourceOpens := true, fps := 1, width := 100, height := 100, numFrames := 2,
    det := fun _ => [], codecOpens := fun _ => false,
    writeFail := fun _ => false, outputFileExists := false,
    tenv := ⟨true, .completed 0, true, 1⟩ }

/-- The frame results of the concrete C10 run. -/
def fdsC10 : List FrameDetect := [⟨0, 0, [], 1, 1⟩, ⟨0, 0, [], 2, 2⟩]

/-- The effects of the concrete C10 run. -/
def effC10 : Effects :=
  { capReleased := true, outOpened := false, outReleased := false,
    usedCodec := none, written := [], collected := fdsC10,
    transcodeInvoked := false }

/-- Witness for C10 on the concrete run `envC10`. -/
theorem C10_response_truncation_witness :
    fdsC10 = effC10.collected.take 100 ∧
    fdsC10.length = min 100 effC10.collected.length ∧
    2 = effC10.collected.length ∧
    (0 : ℚ) = round2 (if effC10.collected.length = 0 then 0
      else (sumPC effC10.collected : ℚ) / (effC10.collected.length : ℚ)) ∧
    (0 : ℚ) = round2 (if effC10.collected.length = 0 then 0
      else sumDensity effC10.collected / (effC10.collected.length : ℚ)) :=
  C10_response_truncation envC10 none 1 2 2 0 0 fdsC10 none false effC10
    (by decide)
